import Mathlib

/-!
Verification development for the dealls-payroll backend (Go).

This file gives a shallow embedding of the payroll core: the domain records,
the in-memory record store that stands for the relational database, the
submission services (attendance, overtime, payroll periods), the payslip
calculator and the transactional payroll run, all translated from the Go
sources under internal/service and internal/repository.

Modelling conventions:
* identifiers (Go uuid.UUID) are naturals;
* calendar dates are naturals counting days from an epoch that falls on a
  Monday, so the weekday of day d is d % 7 with 5 = Saturday, 6 = Sunday;
* Go time.Time values carried by attendance records are a day plus a
  rational hour-of-day;
* monetary amounts and hour counts (Go float64) are rationals;
* wall-clock metadata (created_at / updated_at timestamps, processed_at
  values) is not modelled except where a query filters on it: reimbursement
  range queries filter on created_at, so reimbursements carry a creation day;
* database errors are not modelled; the only failures are the domain
  failures the services construct themselves;
* DB-generated row ids are passed to the services as explicit freshID
  arguments.
-/

namespace Payroll

/-- Identifier type standing for Go uuid.UUID values. -/
abbrev UUID := Nat

/-- Calendar dates: days counted from an epoch Monday. -/
abbrev Day := Nat

/-- Go time.Time at the granularity the services use: a calendar day plus a
rational hour of day. -/
structure GoTime where
  day : Day
  hour : ℚ
deriving Repr, DecidableEq

/-- Go checkOut.Sub(checkIn).Hours(): difference of two instants, in hours. -/
def GoTime.subHours (t u : GoTime) : ℚ :=
  ((t.day : ℚ) - (u.day : ℚ)) * 24 + (t.hour - u.hour)

/-- Weekend test (Go d.Weekday() == time.Saturday or time.Sunday); with a
Monday epoch the weekday of day d is d % 7, Saturday is 5 and Sunday is 6. -/
def isWeekend (d : Day) : Bool :=
  d % 7 == 5 || d % 7 == 6

/-- domain.PayrollPeriod: date range plus the processed flag. -/
structure PayrollPeriod where
  id : UUID
  startDate : Day
  endDate : Day
  isProcessed : Bool
  processedAt : Option Nat
deriving Repr, DecidableEq

/-- domain.EmployeeProfile: one salary profile per employee. -/
structure EmployeeProfile where
  userID : UUID
  salary : ℚ
deriving Repr, DecidableEq

/-- domain.Attendance: one record per employee and day, keyed by row id. -/
structure Attendance where
  id : UUID
  userID : UUID
  date : Day
  checkInTime : GoTime
  checkOutTime : GoTime
  payrollPeriodID : Option UUID
deriving Repr, DecidableEq

/-- domain.Overtime: several records per employee and day are allowed. -/
structure Overtime where
  id : UUID
  userID : UUID
  date : Day
  hours : ℚ
  payrollPeriodID : Option UUID
deriving Repr, DecidableEq

/-- domain.Reimbursement. The Go struct has no date column; the period range
query filters on the created_at timestamp, modelled as the creation day. -/
structure Reimbursement where
  id : UUID
  userID : UUID
  createdAt : Day
  amount : ℚ
  description : String
  payrollPeriodID : Option UUID
deriving Repr, DecidableEq

/-- domain.Payslip: the six monetary fields plus identifying fields. The
DB-generated row id is not modelled. -/
structure Payslip where
  userID : UUID
  payrollPeriodID : UUID
  baseSalary : ℚ
  proratedSalary : ℚ
  overtimePay : ℚ
  totalReimbursement : ℚ
  totalTakeHomePay : ℚ
deriving Repr, DecidableEq

/-- domain.AuditLog: the fields relevant to the claims. userID is the
nullable actor column; createdBy is the BaseModel column the helper fills by
dereferencing the actor pointer. -/
structure AuditLog where
  userID : Option UUID
  action : String
  entityName : String
  entityID : Option UUID
  requestID : String
  createdBy : UUID
  ipAddress : String
deriving Repr, DecidableEq

/-- The backing store: one list per table. -/
structure Store where
  periods : List PayrollPeriod
  profiles : List EmployeeProfile
  attendances : List Attendance
  overtimes : List Overtime
  reimbursements : List Reimbursement
  payslips : List Payslip
  audits : List AuditLog
deriving Repr, DecidableEq

/-! Repository queries (internal/repository, GORM where-clauses as filters). -/

/-- PayrollPeriodRepository.GetPayrollPeriodByID: first row with this id. -/
def GetPayrollPeriodByID (s : Store) (id : UUID) : Option PayrollPeriod :=
  s.periods.find? (fun p => p.id == id)

/-- EmployeeProfileRepository.GetEmployeeProfileByUserID. -/
def GetEmployeeProfileByUserID (s : Store) (userID : UUID) : Option EmployeeProfile :=
  s.profiles.find? (fun p => p.userID == userID)

/-- EmployeeProfileRepository.GetAllEmployeeProfiles. -/
def GetAllEmployeeProfiles (s : Store) : List EmployeeProfile :=
  s.profiles

/-- AttendanceRepository.GetAttendanceByUserIDAndDate: first row matching
user_id = ? AND date = ?. -/
def GetAttendanceByUserIDAndDate (s : Store) (userID : UUID) (date : Day) :
    Option Attendance :=
  s.attendances.find? (fun a => a.userID == userID && a.date == date)

/-- AttendanceRepository.GetAttendancesByUserIDAndPeriod: rows matching
user_id = ? AND date >= ? AND date <= ?. -/
def GetAttendancesByUserIDAndPeriod (s : Store) (userID : UUID) (sd ed : Day) :
    List Attendance :=
  s.attendances.filter
    (fun a => a.userID == userID && decide (sd ≤ a.date) && decide (a.date ≤ ed))

/-- OvertimeRepository.GetOvertimeByUserIDAndDate: rows matching
user_id = ? AND date = ?. -/
def GetOvertimeByUserIDAndDate (s : Store) (userID : UUID) (date : Day) :
    List Overtime :=
  s.overtimes.filter (fun o => o.userID == userID && o.date == date)

/-- OvertimeRepository.GetOvertimesByUserIDAndPeriod: rows matching
user_id = ? AND date >= ? AND date <= ?. -/
def GetOvertimesByUserIDAndPeriod (s : Store) (userID : UUID) (sd ed : Day) :
    List Overtime :=
  s.overtimes.filter
    (fun o => o.userID == userID && decide (sd ≤ o.date) && decide (o.date ≤ ed))

/-- ReimbursementRepository.GetReimbursementsByUserIDAndPeriod: rows matching
user_id = ? AND created_at >= ? AND created_at <= ?. -/
def GetReimbursementsByUserIDAndPeriod (s : Store) (userID : UUID) (sd ed : Day) :
    List Reimbursement :=
  s.reimbursements.filter
    (fun r => r.userID == userID && decide (sd ≤ r.createdAt) && decide (r.createdAt ≤ ed))

/-- PayrollPeriodRepository.GetOverlappingPayrollPeriods: rows matching
start_date <= endDate AND end_date >= startDate. -/
def GetOverlappingPayrollPeriods (s : Store) (startDate endDate : Day) :
    List PayrollPeriod :=
  s.periods.filter
    (fun p => decide (p.startDate ≤ endDate) && decide (startDate ≤ p.endDate))

/-! Service constants (internal/service/payroll.service.go and
overtime.service.go). -/

/-- RegularWorkingHoursPerDay = 8. -/
def RegularWorkingHoursPerDay : ℚ := 8

/-- OvertimeMultiplier = 2.0. -/
def OvertimeMultiplier : ℚ := 2

/-- MaxOvertimeHoursPerDay = 3.0. -/
def MaxOvertimeHoursPerDay : ℚ := 3

/-! Payslip calculator (PayrollService.CalculatePayslip). -/

/-- The clamp applied to one attendance record inside CalculatePayslip:
cap at 8 hours, and any day below 8 hours counts as 0. -/
def clampWorkedHours (wh : ℚ) : ℚ :=
  if wh > RegularWorkingHoursPerDay then RegularWorkingHoursPerDay
  else if wh < RegularWorkingHoursPerDay then 0
  else wh

/-- The totalWorkedHours accumulation loop of CalculatePayslip: every fetched
attendance whose date falls in [startDate, endDate] contributes its clamped
worked hours. -/
def totalWorkedHoursIn (period : PayrollPeriod) (atts : List Attendance) : ℚ :=
  atts.foldl
    (fun acc att =>
      if period.startDate ≤ att.date ∧ att.date ≤ period.endDate then
        acc + clampWorkedHours (att.checkOutTime.subHours att.checkInTime)
      else acc) 0

/-- The totalPossibleWorkingHours loop of CalculatePayslip: 8 hours for each
calendar date of [startDate, endDate] that is not Saturday or Sunday. -/
def totalPossibleWorkingHours (sd ed : Day) : ℚ :=
  (List.range (ed + 1 - sd)).foldl
    (fun acc i => if isWeekend (sd + i) then acc else acc + RegularWorkingHoursPerDay) 0

/-- Count of calendar dates in [sd, ed] that are not Saturday or Sunday. -/
def weekdayCount (sd ed : Day) : Nat :=
  (List.range (ed + 1 - sd)).countP (fun i => !isWeekend (sd + i))

/-- Sum of the hours of a list of overtime records. -/
def sumOvertimeHours (ots : List Overtime) : ℚ :=
  ots.foldl (fun acc ot => acc + ot.hours) 0

/-- Sum of the amounts of a list of reimbursement records. -/
def sumReimbursementAmounts (rs : List Reimbursement) : ℚ :=
  rs.foldl (fun acc r => acc + r.amount) 0

/-- The five-component return value of CalculatePayslip: the payslip plus the
fetched record lists tagged with the period id, handed back for persistence. -/
structure CalcResult where
  payslip : Payslip
  attendances : List Attendance
  overtimes : List Overtime
  reimbursements : List Reimbursement
deriving Repr, DecidableEq

/-- PayrollService.CalculatePayslip. Fails when the employee has no salary
profile; otherwise computes the pay components and returns the payslip
together with the period-tagged copies of the fetched records. The
processedBy and ip arguments only feed audit metadata columns in Go and do
not influence the computed amounts. -/
def CalculatePayslip (s : Store) (userID : UUID) (period : PayrollPeriod)
    (_processedBy : UUID) : Except String CalcResult :=
  match GetEmployeeProfileByUserID s userID with
  | none => .error "employee profile not found"
  | some empProfile =>
    let baseSalary := empProfile.salary
    let attendances := GetAttendancesByUserIDAndPeriod s userID period.startDate period.endDate
    let totalWorkedHours := totalWorkedHoursIn period attendances
    let tphw := totalPossibleWorkingHours period.startDate period.endDate
    let hourlyRate : ℚ := if tphw > 0 then baseSalary / tphw else 0
    let proratedSalary : ℚ := if tphw > 0 then hourlyRate * totalWorkedHours else 0
    let overtimes := GetOvertimesByUserIDAndPeriod s userID period.startDate period.endDate
    let overtimePay := sumOvertimeHours overtimes * hourlyRate * OvertimeMultiplier
    let reimbursements := GetReimbursementsByUserIDAndPeriod s userID period.startDate period.endDate
    let totalReimbursement := sumReimbursementAmounts reimbursements
    let totalTakeHomePay := proratedSalary + overtimePay + totalReimbursement
    .ok
      { payslip :=
          { userID := userID
            payrollPeriodID := period.id
            baseSalary := baseSalary
            proratedSalary := proratedSalary
            overtimePay := overtimePay
            totalReimbursement := totalReimbursement
            totalTakeHomePay := totalTakeHomePay }
        attendances := attendances.map (fun a => { a with payrollPeriodID := some period.id })
        overtimes := overtimes.map (fun o => { o with payrollPeriodID := some period.id })
        reimbursements := reimbursements.map (fun r => { r with payrollPeriodID := some period.id }) }

/-- The payslip a successful CalculatePayslip produces, as an Option. -/
def calcPayslip? (s : Store) (userID : UUID) (period : PayrollPeriod)
    (processedBy : UUID) : Option Payslip :=
  (CalculatePayslip s userID period processedBy).toOption.map (fun r => r.payslip)

/-! Audit helper (internal/repository/audit_log_helper.repository.go). -/

/-- repository.CreateAuditLog. The Go helper fills the created_by and
updated_by columns by dereferencing the userID pointer with no nil check;
the none branch therefore models the nil-pointer panic, not an error
return. JSON marshalling of the snapshots always succeeds for the payloads
the services pass and is not modelled. -/
def CreateAuditLog (audits : List AuditLog) (userID : Option UUID)
    (action entityName : String) (entityID : Option UUID)
    (ipAddress requestID : String) : Option (List AuditLog) :=
  match userID with
  | none => none
  | some uid =>
    some (audits ++
      [{ userID := userID
         action := action
         entityName := entityName
         entityID := entityID
         requestID := requestID
         createdBy := uid
         ipAddress := ipAddress }])

/-- An audit write as the services perform it: the call sites all pass the
address of a local uuid variable, hence a non-nil actor, and ignore the
returned error. The getD default branch is dead code at every call site
because CreateAuditLog with a some actor always succeeds. -/
def auditWrite (audits : List AuditLog) (uid : UUID) (action entityName : String)
    (entityID : Option UUID) (ipAddress requestID : String) : List AuditLog :=
  (CreateAuditLog audits (some uid) action entityName entityID ipAddress requestID).getD audits

/-! Attendance service (internal/service/attendance.service.go). -/

/-- AttendanceService.SubmitAttendance. The weekend guard runs before the
store lookup; an existing record for the day is overwritten in place, else a
new record is appended. The returned store is the post-state even on
failure. -/
def SubmitAttendance (s : Store) (freshID : UUID) (userID : UUID)
    (checkInTime checkOutTime : GoTime) (ipAddress requestID : String) :
    Store × Except String Attendance :=
  if isWeekend checkInTime.day then
    (s, .error "attendance cannot be submitted on weekends")
  else
    match GetAttendanceByUserIDAndDate s userID checkInTime.day with
    | some existingAttendance =>
      let updated :=
        { existingAttendance with checkInTime := checkInTime, checkOutTime := checkOutTime }
      let s1 :=
        { s with attendances :=
            s.attendances.map (fun (a : Attendance) => if a.id == updated.id then updated else a) }
      let aud := auditWrite s1.audits userID "UPDATE" "Attendance"
        (some existingAttendance.id) ipAddress requestID
      ({ s1 with audits := aud }, .ok updated)
    | none =>
      let newAttendance : Attendance :=
        { id := freshID
          userID := userID
          date := checkInTime.day
          checkInTime := checkInTime
          checkOutTime := checkOutTime
          payrollPeriodID := none }
      let s1 := { s with attendances := s.attendances ++ [newAttendance] }
      let aud := auditWrite s1.audits userID "CREATE" "Attendance"
        (some freshID) ipAddress requestID
      ({ s1 with audits := aud }, .ok newAttendance)

/-! Overtime service (internal/service/overtime.service.go). -/

/-- OvertimeService.SubmitOvertime. Sums the existing same-day records, then
rejects when the sum plus the requested hours exceeds the daily cap, all
before any write; otherwise appends a fresh record (same-day records are
never merged). -/
def SubmitOvertime (s : Store) (freshID : UUID) (userID : UUID) (date : Day)
    (hours : ℚ) (ipAddress requestID : String) : Store × Except String Overtime :=
  let existingOvertimes := GetOvertimeByUserIDAndDate s userID date
  let totalHoursToday := sumOvertimeHours existingOvertimes
  if totalHoursToday + hours > MaxOvertimeHoursPerDay then
    (s, .error "total overtime hours for the day cannot exceed the cap")
  else
    let newOvertime : Overtime :=
      { id := freshID, userID := userID, date := date, hours := hours, payrollPeriodID := none }
    let s1 := { s with overtimes := s.overtimes ++ [newOvertime] }
    let aud := auditWrite s1.audits userID "CREATE" "Overtime"
      (some freshID) ipAddress requestID
    ({ s1 with audits := aud }, .ok newOvertime)

/-! Payroll period service (internal/service/payroll_period.service.go). -/

/-- PayrollPeriodService.CreatePayrollPeriod. Rejects unless the end date is
strictly after the start date (Go !endDate.After(startDate)), then rejects
when any stored period overlaps the requested range; only then is the new
period persisted and audited. -/
def CreatePayrollPeriod (s : Store) (freshID : UUID) (startDate endDate : Day)
    (createdBy : UUID) (ipAddress requestID : String) :
    Store × Except String PayrollPeriod :=
  if endDate ≤ startDate then
    (s, .error "end date must be after start date")
  else
    let overlappingPeriods := GetOverlappingPayrollPeriods s startDate endDate
    if 0 < overlappingPeriods.length then
      (s, .error "a payroll period overlapping with these dates already exists")
    else
      let period : PayrollPeriod :=
        { id := freshID
          startDate := startDate
          endDate := endDate
          isProcessed := false
          processedAt := none }
      let s1 := { s with periods := s.periods ++ [period] }
      let aud := auditWrite s1.audits createdBy "CREATE" "PayrollPeriod"
        (some freshID) ipAddress requestID
      ({ s1 with audits := aud }, .ok period)

/-! Payroll run (PayrollService.RunPayroll and the transactional repository
helpers it uses). -/

/-- The per-row tx.Save loop of the UpdateAttendancesTx / UpdateOvertimesTx /
UpdateReimbursementsTx repository helpers: each updated record replaces the
stored row with the same primary key. -/
def saveAllByID {α : Type} (getID : α → UUID) (rows : List α) (upds : List α) : List α :=
  upds.foldl (fun acc u => acc.map (fun x => if getID x == getID u then u else x)) rows

/-- PayrollPeriodGormRepository.MarkPayrollPeriodAsProcessedTx: the
conditional UPDATE guarded by id = ? AND is_processed = false. Zero affected
rows is reported as an error (the processed_at timestamp is wall clock and
modelled as 0). -/
def MarkPayrollPeriodAsProcessedTx (txs : Store) (periodID : UUID) :
    Except String Store :=
  let rowsAffected :=
    (txs.periods.filter (fun p => p.id == periodID && !p.isProcessed)).length
  let updatedPeriods :=
    txs.periods.map (fun p =>
      if p.id == periodID && !p.isProcessed then
        { p with isProcessed := true, processedAt := some 0 }
      else p)
  if rowsAffected == 0 then
    .error "no payroll period updated, maybe already processed or not found"
  else
    .ok { txs with periods := updatedPeriods }

/-- One employee body of the RunPayroll loop: persist the calculated payslip
and save the tagged records, all against the transaction store. -/
def applyCalcTx (txs : Store) (r : CalcResult) : Store :=
  { txs with
    payslips := txs.payslips ++ [r.payslip]
    attendances := saveAllByID Attendance.id txs.attendances r.attendances
    overtimes := saveAllByID Overtime.id txs.overtimes r.overtimes
    reimbursements := saveAllByID Reimbursement.id txs.reimbursements r.reimbursements }

/-- The per-employee loop of RunPayroll. Reads go against the pre-transaction
store s (the repositories the calculator reads through are bound to the base
connection, and uncommitted transaction writes touch other rows only); tx
writes accumulate in txs; audit writes accumulate separately because the
audit repository also uses the base connection and so survives a rollback.
The first calculator failure aborts the loop with its error. -/
def runLoop (s : Store) (period : PayrollPeriod) (processedBy : UUID)
    (ipAddress requestID : String) :
    List EmployeeProfile → Store → List AuditLog → Store × List AuditLog × Option String
  | [], txs, aud => (txs, aud, none)
  | emp :: rest, txs, aud =>
    match CalculatePayslip s emp.userID period processedBy with
    | .error e => (txs, aud, some e)
    | .ok r =>
      runLoop s period processedBy ipAddress requestID rest (applyCalcTx txs r)
        (auditWrite aud processedBy "CREATE" "Payslip" none ipAddress requestID)

/-- The transaction body of RunPayroll from the point where the employee
population has been loaded, taking that population as a parameter (it is the
list the EmployeeProfileRepository returned). On any error the transaction
rolls back: the resulting store is the initial one plus only the audit
entries already written outside the transaction. On success the conditional
processed-flag update and the period audit entry complete the run. -/
def RunPayrollGivenEmployees (s : Store) (employees : List EmployeeProfile)
    (period : PayrollPeriod) (processedBy : UUID) (ipAddress requestID : String) :
    Store × Option String :=
  match runLoop s period processedBy ipAddress requestID employees s [] with
  | (_, aud, some e) => ({ s with audits := s.audits ++ aud }, some e)
  | (txs, aud, none) =>
    match MarkPayrollPeriodAsProcessedTx txs period.id with
    | .error e => ({ s with audits := s.audits ++ aud }, some e)
    | .ok txs1 =>
      let aud1 := auditWrite aud processedBy "UPDATE" "PayrollPeriod" (some period.id)
        ipAddress requestID
      ({ txs1 with audits := s.audits ++ aud1 }, none)

/-- PayrollService.RunPayroll: load the period, reject a missing or already
processed period, then run the transaction body over all employee salary
profiles. -/
def RunPayroll (s : Store) (periodID : UUID) (processedBy : UUID)
    (ipAddress requestID : String) : Store × Option String :=
  match GetPayrollPeriodByID s periodID with
  | none => (s, some "payroll period not found")
  | some period =>
    if period.isProcessed then (s, some "payroll already processed")
    else RunPayrollGivenEmployees s (GetAllEmployeeProfiles s) period processedBy
      ipAddress requestID

/-! Invariants stated by the spec for payroll periods. -/

/-- Two periods overlap when their inclusive [start, end] ranges intersect,
which is the condition of the GetOverlappingPayrollPeriods query. -/
def periodsOverlap (p q : PayrollPeriod) : Prop :=
  p.startDate ≤ q.endDate ∧ q.startDate ≤ p.endDate

/-- Well-formedness of the stored periods: every stored period has
start_date < end_date and the stored periods are pairwise non-overlapping. -/
def PeriodsWellFormed (ps : List PayrollPeriod) : Prop :=
  (∀ p ∈ ps, p.startDate < p.endDate) ∧ ps.Pairwise (fun p q => ¬ periodsOverlap p q)

/-! Concrete fixtures. Day 0 is an epoch Monday standing for 2025-09-01, so
day 11 is Friday 2025-09-12 and days 5 and 6 are the weekend in between. -/

/-- The period of the end-to-end scenario: [2025-09-01, 2025-09-12]. -/
def e2ePeriod : PayrollPeriod :=
  { id := 1, startDate := 0, endDate := 11, isProcessed := false, processedAt := none }

/-- One exactly-8-hour attendance record (09:00 to 17:00) for employee 10. -/
def e2eAttendance (d : Day) : Attendance :=
  { id := 100 + d, userID := 10, date := d
    checkInTime := { day := d, hour := 9 }, checkOutTime := { day := d, hour := 17 }
    payrollPeriodID := none }

/-- The end-to-end scenario store: one employee (id 10) with base salary
5000000, one exactly-8-hour attendance per weekday of the period, one
2-hour overtime record and one 150000 reimbursement. -/
def e2eStore : Store :=
  { periods := [e2ePeriod]
    profiles := [{ userID := 10, salary := 5000000 }]
    attendances := [0, 1, 2, 3, 4, 7, 8, 9, 10, 11].map e2eAttendance
    overtimes := [{ id := 200, userID := 10, date := 3, hours := 2, payrollPeriodID := none }]
    reimbursements := [{ id := 300, userID := 10, createdAt := 4, amount := 150000
                         description := "travel", payrollPeriodID := none }]
    payslips := []
    audits := [] }

/-- A store with no rows at all. -/
def emptyStore : Store :=
  { periods := [], profiles := [], attendances := [], overtimes := []
    reimbursements := [], payslips := [], audits := [] }

/-- A store holding a single already-processed period with id 1. -/
def processedStore : Store :=
  { emptyStore with periods :=
      [{ id := 1, startDate := 0, endDate := 11, isProcessed := true, processedAt := some 0 }] }

/-- A store holding a single still-open period with id 1 and no employees. -/
def openPeriodStore : Store :=
  { emptyStore with periods := [e2ePeriod] }

/-- An attendance record with a 10-hour shift (08:00 to 18:00) on day 2. -/
def tenHourAttendance : Attendance :=
  { id := 400, userID := 10, date := 2
    checkInTime := { day := 2, hour := 8 }, checkOutTime := { day := 2, hour := 18 }
    payrollPeriodID := none }

/-- An attendance record with a 5-hour shift (08:00 to 13:00) on day 2. -/
def fiveHourAttendance : Attendance :=
  { id := 401, userID := 10, date := 2
    checkInTime := { day := 2, hour := 8 }, checkOutTime := { day := 2, hour := 13 }
    payrollPeriodID := none }

/-- A store with the open [0, 11] period and one profiled employee who has
submitted nothing at all. -/
def soloStore : Store :=
  { emptyStore with periods := [e2ePeriod], profiles := [{ userID := 20, salary := 800 }] }

/-- Modelled from the claim wording for comparison with the code: the hourly
rate is the monthly base salary divided by (8 times the count of weekday
dates of the period), and 0 when that count is 0. The code instead divides
by its totalPossibleWorkingHours accumulator; the two agree by
totalPossibleWorkingHours_eq. -/
def specHourlyRate (salary : ℚ) (period : PayrollPeriod) : ℚ :=
  if 0 < weekdayCount period.startDate period.endDate then
    salary / (8 * (weekdayCount period.startDate period.endDate : ℚ))
  else 0

/-! Helper lemmas. -/

lemma foldl_possible (sd : Day) (l : List Nat) (acc : ℚ) :
    l.foldl (fun acc i => if isWeekend (sd + i) then acc else acc + RegularWorkingHoursPerDay) acc =
      acc + RegularWorkingHoursPerDay * (l.countP (fun i => !isWeekend (sd + i)) : ℚ) := by
  induction l generalizing acc with
  | nil => simp
  | cons a l ih =>
    simp only [List.foldl_cons, List.countP_cons]
    by_cases h : isWeekend (sd + a)
    · simp only [if_pos h, h]
      rw [ih]
      norm_num
    · simp only [if_neg h, h]
      rw [ih]
      push_cast [Bool.not_false]
      norm_num
      ring

/-- The possible-working-hours accumulator equals 8 times the weekday count. -/
lemma totalPossibleWorkingHours_eq (sd ed : Day) :
    totalPossibleWorkingHours sd ed =
      RegularWorkingHoursPerDay * (weekdayCount sd ed : ℚ) := by
  simpa [weekdayCount] using foldl_possible sd (List.range (ed + 1 - sd)) 0

/-- Positivity of the accumulator is positivity of the weekday count. -/
lemma tphw_pos_iff (sd ed : Day) :
    totalPossibleWorkingHours sd ed > 0 ↔ 0 < weekdayCount sd ed := by
  rw [totalPossibleWorkingHours_eq]
  have h8 : (0 : ℚ) < RegularWorkingHoursPerDay := by norm_num [RegularWorkingHoursPerDay]
  constructor
  · intro h
    by_contra hc
    have : weekdayCount sd ed = 0 := Nat.eq_zero_of_not_pos hc
    rw [this] at h
    simp at h
  · intro h
    have : (0 : ℚ) < (weekdayCount sd ed : ℚ) := by exact_mod_cast h
    exact mul_pos h8 this

/-- The hourly rate the code computes equals the spec formula. -/
lemma hourlyRate_eq (salary : ℚ) (period : PayrollPeriod) :
    (if totalPossibleWorkingHours period.startDate period.endDate > 0 then
        salary / totalPossibleWorkingHours period.startDate period.endDate
      else 0) = specHourlyRate salary period := by
  rw [specHourlyRate]
  by_cases hpos : 0 < weekdayCount period.startDate period.endDate
  · rw [if_pos ((tphw_pos_iff _ _).2 hpos), if_pos hpos, totalPossibleWorkingHours_eq]
    norm_num [RegularWorkingHoursPerDay]
  · rw [if_neg (fun hc => hpos ((tphw_pos_iff _ _).1 hc)), if_neg hpos]

/-- C1: for every employee with a salary profile and every payroll period,
CalculatePayslip succeeds and computes prorated_salary = hourly_rate times
the total clamped worked hours, overtime_pay = (sum of overtime hours in
range) times hourly_rate times 2.0, total_reimbursement = sum of
reimbursement amounts in range, and total_take_home_pay as their sum, where
hourly_rate = base salary / (8 times the weekday count of the period), 0
when that count is 0. In the concrete 10-weekday scenario with base salary
5000000, exactly-8-hour attendances each weekday, 2 overtime hours and one
150000 reimbursement, the possible working hours are 80, the hourly rate is
62500, and the payslip fields are 5000000 / 250000 / 150000 / 5400000. -/
theorem calculatePayslip_formulas
    (s : Store) (userID : UUID) (period : PayrollPeriod) (processedBy : UUID)
    (prof : EmployeeProfile)
    (h : GetEmployeeProfileByUserID s userID = some prof) :
    (∃ r, CalculatePayslip s userID period processedBy = .ok r ∧
      r.payslip.baseSalary = prof.salary ∧
      r.payslip.proratedSalary =
        specHourlyRate prof.salary period *
          totalWorkedHoursIn period
            (GetAttendancesByUserIDAndPeriod s userID period.startDate period.endDate) ∧
      r.payslip.overtimePay =
        sumOvertimeHours (GetOvertimesByUserIDAndPeriod s userID period.startDate period.endDate) *
          specHourlyRate prof.salary period * 2 ∧
      r.payslip.totalReimbursement =
        sumReimbursementAmounts
          (GetReimbursementsByUserIDAndPeriod s userID period.startDate period.endDate) ∧
      r.payslip.totalTakeHomePay =
        r.payslip.proratedSalary + r.payslip.overtimePay + r.payslip.totalReimbursement) ∧
    totalPossibleWorkingHours e2ePeriod.startDate e2ePeriod.endDate = 80 ∧
    (5000000 : ℚ) / 80 = 62500 ∧
    calcPayslip? e2eStore 10 e2ePeriod 99 =
      some { userID := 10, payrollPeriodID := 1, baseSalary := 5000000
             proratedSalary := 5000000, overtimePay := 250000
             totalReimbursement := 150000, totalTakeHomePay := 5400000 } := by
  refine ⟨?_, ?_, by norm_num, ?_⟩
  · simp only [CalculatePayslip, h]
    refine ⟨_, rfl, rfl, ?_, ?_, rfl, rfl⟩
    · rw [← hourlyRate_eq prof.salary period]
      by_cases hpos : totalPossibleWorkingHours period.startDate period.endDate > 0
      · rw [if_pos hpos, if_pos hpos]
      · rw [if_neg hpos, if_neg hpos, zero_mul]
    · rw [← hourlyRate_eq prof.salary period, OvertimeMultiplier]
  · rw [totalPossibleWorkingHours_eq]
    have hc : weekdayCount e2ePeriod.startDate e2ePeriod.endDate = 10 := by decide
    rw [hc]
    norm_num [RegularWorkingHoursPerDay]
  · norm_num [calcPayslip?, CalculatePayslip, e2eStore, e2ePeriod, e2eAttendance,
      GetEmployeeProfileByUserID, GetAttendancesByUserIDAndPeriod,
      GetOvertimesByUserIDAndPeriod, GetReimbursementsByUserIDAndPeriod,
      totalWorkedHoursIn, totalPossibleWorkingHours, clampWorkedHours,
      sumOvertimeHours, sumReimbursementAmounts, GoTime.subHours,
      RegularWorkingHoursPerDay, OvertimeMultiplier, isWeekend, List.range_succ,
      List.find?, List.filter, List.foldl, Except.toOption]

/-- Witness for C1: the end-to-end scenario store satisfies the profile
hypothesis and yields the claimed payslip. -/
theorem calculatePayslip_formulas_witness :
    GetEmployeeProfileByUserID e2eStore 10 = some { userID := 10, salary := 5000000 } ∧
    calcPayslip? e2eStore 10 e2ePeriod 99 =
      some { userID := 10, payrollPeriodID := 1, baseSalary := 5000000
             proratedSalary := 5000000, overtimePay := 250000
             totalReimbursement := 150000, totalTakeHomePay := 5400000 } :=
  ⟨by norm_num [GetEmployeeProfileByUserID, e2eStore, List.find?],
   (calculatePayslip_formulas e2eStore 10 e2ePeriod 99 { userID := 10, salary := 5000000 }
      (by norm_num [GetEmployeeProfileByUserID, e2eStore, List.find?])).2.2.2⟩

/-- An audit write through the always-some wrapper appends exactly the one
entry built from the actor. -/
lemma auditWrite_eq (audits : List AuditLog) (uid : UUID) (action en : String)
    (eid : Option UUID) (ip rid : String) :
    auditWrite audits uid action en eid ip rid =
      audits ++ [{ userID := some uid, action := action, entityName := en
                   entityID := eid, requestID := rid, createdBy := uid, ipAddress := ip }] := rfl

/-- C5: an attendance record whose date falls inside the period contributes
its clamped worked hours to total_worked_hours: 8 when the span exceeds 8
hours, 0 when it is below 8, and the value itself when it is exactly 8; in
particular a 10-hour record contributes exactly 8 and a 5-hour record
contributes 0. -/
theorem totalWorkedHours_clamp
    (period : PayrollPeriod) (a : Attendance)
    (h1 : period.startDate ≤ a.date) (h2 : a.date ≤ period.endDate) :
    totalWorkedHoursIn period [a] =
      clampWorkedHours (a.checkOutTime.subHours a.checkInTime) ∧
    (a.checkOutTime.subHours a.checkInTime > 8 → totalWorkedHoursIn period [a] = 8) ∧
    (a.checkOutTime.subHours a.checkInTime < 8 → totalWorkedHoursIn period [a] = 0) ∧
    (a.checkOutTime.subHours a.checkInTime = 8 → totalWorkedHoursIn period [a] = 8) ∧
    totalWorkedHoursIn e2ePeriod [tenHourAttendance] = 8 ∧
    totalWorkedHoursIn e2ePeriod [fiveHourAttendance] = 0 := by
  have hbase : totalWorkedHoursIn period [a] =
      clampWorkedHours (a.checkOutTime.subHours a.checkInTime) := by
    simp only [totalWorkedHoursIn, List.foldl_cons, List.foldl_nil, if_pos (And.intro h1 h2),
      zero_add]
  refine ⟨hbase, ?_, ?_, ?_, ?_, ?_⟩
  · intro hgt
    rw [hbase, clampWorkedHours, RegularWorkingHoursPerDay, if_pos hgt]
  · intro hlt
    rw [hbase, clampWorkedHours, RegularWorkingHoursPerDay, if_neg (by linarith), if_pos hlt]
  · intro heq
    rw [hbase, clampWorkedHours, RegularWorkingHoursPerDay, heq]
    norm_num
  · norm_num [totalWorkedHoursIn, e2ePeriod, tenHourAttendance, clampWorkedHours,
      GoTime.subHours, RegularWorkingHoursPerDay]
  · norm_num [totalWorkedHoursIn, e2ePeriod, fiveHourAttendance, clampWorkedHours,
      GoTime.subHours, RegularWorkingHoursPerDay]

/-- Witness for C5 at the concrete 10-hour record inside the scenario
period. -/
theorem totalWorkedHours_clamp_witness :
    totalWorkedHoursIn e2ePeriod [tenHourAttendance] =
      clampWorkedHours (tenHourAttendance.checkOutTime.subHours tenHourAttendance.checkInTime) :=
  (totalWorkedHours_clamp e2ePeriod tenHourAttendance (by decide) (by decide)).1

/-- C7: an attendance submission whose check-in day is Saturday or Sunday
fails with the weekend error before any store or audit write (the returned
store is exactly the input store); on a weekday the submission succeeds and
writes exactly one audit entry. -/
theorem submitAttendance_weekend
    (s : Store) (freshID userID : UUID) (ci co : GoTime) (ip rid : String) :
    (isWeekend ci.day = true →
      SubmitAttendance s freshID userID ci co ip rid =
        (s, .error "attendance cannot be submitted on weekends")) ∧
    (isWeekend ci.day = false →
      (SubmitAttendance s freshID userID ci co ip rid).1.audits.length = s.audits.length + 1 ∧
      ∃ a, (SubmitAttendance s freshID userID ci co ip rid).2 = .ok a) := by
  constructor
  · intro h
    simp only [SubmitAttendance, h, if_true]
  · intro h
    simp only [SubmitAttendance, h, Bool.false_eq_true, if_false]
    cases hview : GetAttendanceByUserIDAndDate s userID ci.day with
    | some existing =>
      refine ⟨?_, _, rfl⟩
      simp [auditWrite_eq]
    | none =>
      refine ⟨?_, _, rfl⟩
      simp [auditWrite_eq]

/-- Witness for C7: a Saturday (day 5) check-in on the empty store is
rejected with the store untouched, and a Monday (day 0) check-in writes one
audit entry. -/
theorem submitAttendance_weekend_witness :
    SubmitAttendance emptyStore 1 10 { day := 5, hour := 9 } { day := 5, hour := 17 } "ip" "r" =
      (emptyStore, .error "attendance cannot be submitted on weekends") ∧
    (SubmitAttendance emptyStore 1 10 { day := 0, hour := 9 } { day := 0, hour := 17 }
        "ip" "r").1.audits.length = emptyStore.audits.length + 1 :=
  ⟨(submitAttendance_weekend emptyStore 1 10 { day := 5, hour := 9 } { day := 5, hour := 17 }
      "ip" "r").1 (by decide),
   ((submitAttendance_weekend emptyStore 1 10 { day := 0, hour := 9 } { day := 0, hour := 17 }
      "ip" "r").2 (by decide)).1⟩

/-- C6: an overtime submission is rejected exactly when the sum of the
same-day existing hours plus the requested hours exceeds 3.0, in which case
nothing is written; otherwise a fresh record is appended (never merged with
existing same-day records). The cap is inclusive: from an empty day,
exactly 3.0 hours are accepted and 3.01 hours are rejected. -/
theorem submitOvertime_cap
    (s : Store) (freshID userID : UUID) (date : Day) (hours : ℚ) (ip rid : String) :
    (sumOvertimeHours (GetOvertimeByUserIDAndDate s userID date) + hours >
        MaxOvertimeHoursPerDay →
      SubmitOvertime s freshID userID date hours ip rid =
        (s, .error "total overtime hours for the day cannot exceed the cap")) ∧
    (sumOvertimeHours (GetOvertimeByUserIDAndDate s userID date) + hours ≤
        MaxOvertimeHoursPerDay →
      (SubmitOvertime s freshID userID date hours ip rid).1.overtimes =
        s.overtimes ++
          [{ id := freshID, userID := userID, date := date, hours := hours
             payrollPeriodID := none }] ∧
      (SubmitOvertime s freshID userID date hours ip rid).2 =
        .ok { id := freshID, userID := userID, date := date, hours := hours
              payrollPeriodID := none }) ∧
    (SubmitOvertime emptyStore 1 10 0 3 "ip" "r").2 =
      .ok { id := 1, userID := 10, date := 0, hours := 3, payrollPeriodID := none } ∧
    SubmitOvertime emptyStore 1 10 0 3.01 "ip" "r" =
      (emptyStore, .error "total overtime hours for the day cannot exceed the cap") := by
  refine ⟨?_, ?_, ?_, ?_⟩
  · intro h
    simp only [SubmitOvertime]
    rw [if_pos h]
  · intro h
    simp only [SubmitOvertime]
    rw [if_neg (not_lt.mpr h)]
    exact ⟨rfl, rfl⟩
  · norm_num [SubmitOvertime, GetOvertimeByUserIDAndDate, sumOvertimeHours, emptyStore,
      MaxOvertimeHoursPerDay]
  · norm_num [SubmitOvertime, GetOvertimeByUserIDAndDate, sumOvertimeHours, emptyStore,
      MaxOvertimeHoursPerDay]

/-- Witness for C6: the cap hypotheses discharged concretely on the empty
store, at exactly 3.0 hours (accepted) and 3.01 hours (rejected). -/
theorem submitOvertime_cap_witness :
    (SubmitOvertime emptyStore 1 10 0 3 "ip" "r").1.overtimes =
      emptyStore.overtimes ++
        [{ id := 1, userID := 10, date := 0, hours := 3, payrollPeriodID := none }] ∧
    SubmitOvertime emptyStore 1 10 0 3.01 "ip" "r" =
      (emptyStore, .error "total overtime hours for the day cannot exceed the cap") :=
  ⟨((submitOvertime_cap emptyStore 1 10 0 3 "ip" "r").2.1
      (by norm_num [GetOvertimeByUserIDAndDate, sumOvertimeHours, emptyStore,
        MaxOvertimeHoursPerDay])).1,
   (submitOvertime_cap emptyStore 1 10 0 3.01 "ip" "r").1
      (by norm_num [GetOvertimeByUserIDAndDate, sumOvertimeHours, emptyStore,
        MaxOvertimeHoursPerDay])⟩

/-- C10: the audit helper dereferences its actor pointer unconditionally,
so it is total only on non-nil actors: a nil actor yields no entry (the
dereference panics), a non-nil actor always succeeds; and the wrapper every
core service call site goes through passes a non-nil actor, so every entry
it appends carries that actor and no nil-actor entry is ever produced. -/
theorem createAuditLog_actor
    (audits : List AuditLog) (uid : UUID) (action en : String)
    (eid : Option UUID) (ip rid : String) :
    CreateAuditLog audits none action en eid ip rid = none ∧
    CreateAuditLog audits (some uid) action en eid ip rid =
      some (audits ++ [{ userID := some uid, action := action, entityName := en
                         entityID := eid, requestID := rid, createdBy := uid
                         ipAddress := ip }]) ∧
    auditWrite audits uid action en eid ip rid =
      audits ++ [{ userID := some uid, action := action, entityName := en
                   entityID := eid, requestID := rid, createdBy := uid
                   ipAddress := ip }] ∧
    ∀ e ∈ auditWrite audits uid action en eid ip rid,
      e ∈ audits ∨ e.userID = some uid := by
  refine ⟨rfl, rfl, rfl, ?_⟩
  intro e he
  rw [auditWrite_eq] at he
  rcases List.mem_append.mp he with h | h
  · exact Or.inl h
  · right
    have : e = { userID := some uid, action := action, entityName := en
                 entityID := eid, requestID := rid, createdBy := uid
                 ipAddress := ip } := List.mem_singleton.mp h
    rw [this]

/-! Lemmas on the payroll run machinery. -/

/-- Lookup by id commutes with mapping an id-preserving function. -/
lemma find?_map_of_id_preserving (f : PayrollPeriod → PayrollPeriod)
    (hf : ∀ p, (f p).id = p.id) (ps : List PayrollPeriod) (pid : UUID) :
    (ps.map f).find? (fun p => p.id == pid) =
      (ps.find? (fun p => p.id == pid)).map f := by
  induction ps with
  | nil => rfl
  | cons a l ih =>
    simp only [List.map_cons, List.find?_cons, hf a]
    by_cases h : a.id == pid
    · simp [h]
    · simp only [h]
      exact ih

/-- Applying one calculator result to the transaction store leaves the
periods, profiles and audits tables untouched. -/
lemma applyCalcTx_fields (txs : Store) (r : CalcResult) :
    (applyCalcTx txs r).periods = txs.periods ∧
    (applyCalcTx txs r).profiles = txs.profiles ∧
    (applyCalcTx txs r).audits = txs.audits := ⟨rfl, rfl, rfl⟩

/-- The employee loop never writes periods into the transaction store. -/
lemma runLoop_periods (s : Store) (period : PayrollPeriod) (pb : UUID)
    (ip rid : String) :
    ∀ (emps : List EmployeeProfile) (txs : Store) (aud : List AuditLog),
      (runLoop s period pb ip rid emps txs aud).1.periods = txs.periods := by
  intro emps
  induction emps with
  | nil => intro txs aud; rfl
  | cons emp rest ih =>
    intro txs aud
    simp only [runLoop]
    cases hc : CalculatePayslip s emp.userID period pb with
    | error e => rfl
    | ok r => rw [ih]; exact (applyCalcTx_fields txs r).1

/-- The employee loop succeeds exactly when the calculator succeeds for
every employee of the population. -/
lemma runLoop_none_iff (s : Store) (period : PayrollPeriod) (pb : UUID)
    (ip rid : String) :
    ∀ (emps : List EmployeeProfile) (txs : Store) (aud : List AuditLog),
      (runLoop s period pb ip rid emps txs aud).2.2 = none ↔
        ∀ emp ∈ emps, ∃ r, CalculatePayslip s emp.userID period pb = .ok r := by
  intro emps
  induction emps with
  | nil => intro txs aud; simp [runLoop]
  | cons emp rest ih =>
    intro txs aud
    simp only [runLoop]
    cases hc : CalculatePayslip s emp.userID period pb with
    | error e =>
      simp only [List.mem_cons]
      constructor
      · intro h; cases h
      · intro h
        rcases h emp (Or.inl rfl) with ⟨r, hr⟩
        rw [hc] at hr; cases hr
    | ok r =>
      rw [ih]
      constructor
      · intro h emp2 hemp2
        rcases List.mem_cons.mp hemp2 with he | he
        · exact ⟨r, he ▸ hc⟩
        · exact h emp2 he
      · intro h emp2 hemp2
        exact h emp2 (List.mem_cons_of_mem _ hemp2)

/-- On success, the employee loop appends exactly the payslips the
calculator produced, one per employee, in population order. -/
lemma runLoop_payslips (s : Store) (period : PayrollPeriod) (pb : UUID)
    (ip rid : String) :
    ∀ (emps : List EmployeeProfile) (txs : Store) (aud : List AuditLog),
      (runLoop s period pb ip rid emps txs aud).2.2 = none →
      (runLoop s period pb ip rid emps txs aud).1.payslips =
        txs.payslips ++ emps.filterMap (fun emp => calcPayslip? s emp.userID period pb) := by
  intro emps
  induction emps with
  | nil => intro txs aud _; simp [runLoop]
  | cons emp rest ih =>
    intro txs aud hnone
    simp only [runLoop] at hnone ⊢
    cases hc : CalculatePayslip s emp.userID period pb with
    | error e => rw [hc] at hnone; cases hnone
    | ok r =>
      rw [hc] at hnone
      rw [ih _ _ hnone]
      have hfm : calcPayslip? s emp.userID period pb = some r.payslip := by
        simp [calcPayslip?, hc, Except.toOption]
      rw [List.filterMap_cons, hfm]
      simp only [applyCalcTx, List.append_assoc, List.singleton_append]

/-- A failed transaction body leaves every table except the audit sink
exactly as it was: full rollback. -/
lemma rpge_error_fields (s : Store) (employees : List EmployeeProfile)
    (period : PayrollPeriod) (pb : UUID) (ip rid : String) (s1 : Store) (e : String)
    (h : RunPayrollGivenEmployees s employees period pb ip rid = (s1, some e)) :
    s1.payslips = s.payslips ∧ s1.attendances = s.attendances ∧
    s1.overtimes = s.overtimes ∧ s1.reimbursements = s.reimbursements ∧
    s1.periods = s.periods ∧ s1.profiles = s.profiles := by
  unfold RunPayrollGivenEmployees at h
  rcases hrl : runLoop s period pb ip rid employees s [] with ⟨txs, aud, err⟩
  rw [hrl] at h
  cases err with
  | some e2 =>
    simp only at h
    cases h
    exact ⟨rfl, rfl, rfl, rfl, rfl, rfl⟩
  | none =>
    simp only at h
    cases hm : MarkPayrollPeriodAsProcessedTx txs period.id with
    | error e2 =>
      rw [hm] at h
      simp only at h
      cases h
      exact ⟨rfl, rfl, rfl, rfl, rfl, rfl⟩
    | ok txs1 =>
      rw [hm] at h
      simp only at h
      cases h

/-- If the calculator fails for some employee of the population, the
transaction body fails. -/
lemma rpge_fails_of_calc_error (s : Store) (employees : List EmployeeProfile)
    (period : PayrollPeriod) (pb : UUID) (ip rid : String)
    (h : ∃ emp ∈ employees, ∃ e, CalculatePayslip s emp.userID period pb = .error e) :
    ∃ e, (RunPayrollGivenEmployees s employees period pb ip rid).2 = some e := by
  unfold RunPayrollGivenEmployees
  rcases hrl : runLoop s period pb ip rid employees s [] with ⟨txs, aud, err⟩
  cases err with
  | some e2 => exact ⟨e2, rfl⟩
  | none =>
    exfalso
    have hall := (runLoop_none_iff s period pb ip rid employees s []).1 (by rw [hrl])
    rcases h with ⟨emp, hemp, e, he⟩
    rcases hall emp hemp with ⟨r, hr⟩
    rw [he] at hr
    cases hr

/-- If no still-unprocessed period row with the right id exists, the
conditional update matches zero rows and reports the conflict error. -/
lemma markTx_error_of_no_open (txs : Store) (periodID : UUID)
    (h : ¬ ∃ p ∈ txs.periods, p.id = periodID ∧ p.isProcessed = false) :
    MarkPayrollPeriodAsProcessedTx txs periodID =
      .error "no payroll period updated, maybe already processed or not found" := by
  unfold MarkPayrollPeriodAsProcessedTx
  have hfil : txs.periods.filter (fun p => p.id == periodID && !p.isProcessed) = [] := by
    rw [List.filter_eq_nil_iff]
    intro p hp
    simp only [Bool.and_eq_true, beq_iff_eq, Bool.not_eq_true']
    intro hcon
    exact h ⟨p, hp, hcon.1, hcon.2⟩
  rw [hfil]
  rfl

/-- A successful conditional update certifies that an unprocessed row with
the right id existed and flips exactly the matching rows to processed. -/
lemma markTx_ok_shape (txs : Store) (periodID : UUID) (txs1 : Store)
    (h : MarkPayrollPeriodAsProcessedTx txs periodID = .ok txs1) :
    (∃ p ∈ txs.periods, p.id = periodID ∧ p.isProcessed = false) ∧
    txs1 = { txs with periods := txs.periods.map (fun p =>
      if p.id == periodID && !p.isProcessed then
        { p with isProcessed := true, processedAt := some 0 }
      else p) } := by
  unfold MarkPayrollPeriodAsProcessedTx at h
  by_cases hlen :
      (txs.periods.filter (fun p => p.id == periodID && !p.isProcessed)).length = 0
  · rw [if_pos (by simpa using hlen)] at h
    cases h
  · rw [if_neg (by simpa using hlen)] at h
    refine ⟨?_, by cases h; rfl⟩
    have hne : txs.periods.filter (fun p => p.id == periodID && !p.isProcessed) ≠ [] := by
      intro hc
      exact hlen (by rw [hc]; rfl)
    rcases List.exists_mem_of_ne_nil _ hne with ⟨p, hp⟩
    have hmem := List.mem_filter.mp hp
    refine ⟨p, hmem.1, ?_⟩
    have := hmem.2
    simp only [Bool.and_eq_true, beq_iff_eq, Bool.not_eq_true'] at this
    exact this

/-- If no still-unprocessed period row with the right id exists, the
transaction body fails (either in the loop or at the conditional update). -/
lemma rpge_fails_of_no_open (s : Store) (employees : List EmployeeProfile)
    (period : PayrollPeriod) (pb : UUID) (ip rid : String)
    (h : ¬ ∃ p ∈ s.periods, p.id = period.id ∧ p.isProcessed = false) :
    ∃ e, (RunPayrollGivenEmployees s employees period pb ip rid).2 = some e := by
  unfold RunPayrollGivenEmployees
  rcases hrl : runLoop s period pb ip rid employees s [] with ⟨txs, aud, err⟩
  cases err with
  | some e2 => exact ⟨e2, rfl⟩
  | none =>
    have hper : txs.periods = s.periods := by
      have := runLoop_periods s period pb ip rid employees s []
      rw [hrl] at this
      exact this
    have hmark := markTx_error_of_no_open txs period.id (by rw [hper]; exact h)
    simp only [hmark]
    exact ⟨_, rfl⟩

/-- Shape of a successful transaction body: every calculator call succeeded,
the new payslips are appended in population order, an unprocessed row with
the period id existed, and the periods table is the conditional update of
the original one. -/
lemma rpge_success_shape (s : Store) (employees : List EmployeeProfile)
    (period : PayrollPeriod) (pb : UUID) (ip rid : String) (s1 : Store)
    (h : RunPayrollGivenEmployees s employees period pb ip rid = (s1, none)) :
    (∀ emp ∈ employees, ∃ r, CalculatePayslip s emp.userID period pb = .ok r) ∧
    s1.payslips = s.payslips ++
      employees.filterMap (fun emp => calcPayslip? s emp.userID period pb) ∧
    (∃ p ∈ s.periods, p.id = period.id ∧ p.isProcessed = false) ∧
    s1.periods = s.periods.map (fun p =>
      if p.id == period.id && !p.isProcessed then
        { p with isProcessed := true, processedAt := some 0 }
      else p) := by
  unfold RunPayrollGivenEmployees at h
  rcases hrl : runLoop s period pb ip rid employees s [] with ⟨txs, aud, err⟩
  rw [hrl] at h
  cases err with
  | some e2 => simp only at h; cases h
  | none =>
    simp only at h
    cases hm : MarkPayrollPeriodAsProcessedTx txs period.id with
    | error e2 => rw [hm] at h; simp only at h; cases h
    | ok txs1 =>
      rw [hm] at h
      simp only at h
      have hs1 : s1.payslips = txs1.payslips ∧ s1.periods = txs1.periods := by
        cases h
        exact ⟨rfl, rfl⟩
      have hper : txs.periods = s.periods := by
        have := runLoop_periods s period pb ip rid employees s []
        rw [hrl] at this
        exact this
      have hshape := markTx_ok_shape txs period.id txs1 hm
      have hall := (runLoop_none_iff s period pb ip rid employees s []).1 (by rw [hrl])
      refine ⟨hall, ?_, ?_, ?_⟩
      · have hps := runLoop_payslips s period pb ip rid employees s [] (by rw [hrl])
        rw [hrl] at hps
        rw [hs1.1, hshape.2]
        exact hps
      · rw [← hper]; exact hshape.1
      · rw [hs1.2, hshape.2]
        simp only
        rw [hper]

/-- A successful run flips the stored period to processed, so an immediate
rerun hits the already-processed guard and changes nothing. -/
lemma runPayroll_success_processed (s : Store) (periodID pb pb2 : UUID)
    (ip rid ip2 rid2 : String) (s1 : Store)
    (h : RunPayroll s periodID pb ip rid = (s1, none)) :
    RunPayroll s1 periodID pb2 ip2 rid2 = (s1, some "payroll already processed") := by
  unfold RunPayroll at h
  cases hfind : GetPayrollPeriodByID s periodID with
  | none => rw [hfind] at h; simp only at h; cases h
  | some period =>
    rw [hfind] at h
    simp only at h
    by_cases hproc : period.isProcessed
    · rw [if_pos hproc] at h; cases h
    · rw [if_neg hproc] at h
      have hid : period.id = periodID := by
        have := List.find?_some hfind
        exact beq_iff_eq.mp this
      have hshape := rpge_success_shape s (GetAllEmployeeProfiles s) period pb ip rid s1 h
      have hidpre : ∀ p : PayrollPeriod,
          ((fun p => if p.id == period.id && !p.isProcessed then
              { p with isProcessed := true, processedAt := some 0 }
            else p) p).id = p.id := by
        intro p
        show (if (p.id == period.id && !p.isProcessed) = true then
            ({ p with isProcessed := true, processedAt := some 0 } : PayrollPeriod)
          else p).id = p.id
        split
        · rfl
        · rfl
      have hcond : (period.id == period.id && !period.isProcessed) = true := by
        simp [hproc]
      have hfp : (fun p => if p.id == period.id && !p.isProcessed then
          { p with isProcessed := true, processedAt := some 0 } else p) period =
          { period with isProcessed := true, processedAt := some 0 } := by
        show (if (period.id == period.id && !period.isProcessed) = true then
            ({ period with isProcessed := true, processedAt := some 0 } : PayrollPeriod)
          else period) =
          { period with isProcessed := true, processedAt := some 0 }
        rw [if_pos hcond]
      have hfind1 : GetPayrollPeriodByID s1 periodID =
          some { period with isProcessed := true, processedAt := some 0 } := by
        unfold GetPayrollPeriodByID
        rw [hshape.2.2.2, find?_map_of_id_preserving _ hidpre]
        unfold GetPayrollPeriodByID at hfind
        rw [hfind]
        simp [hfp]
        intro hp
        exact absurd hp hproc
      unfold RunPayroll
      rw [hfind1]
      simp

/-- C3: RunPayroll fails with the not-found error when the period is absent
and with the already-processed error when its processed flag is set; and
after a successful run, a rerun on the same period fails with the
already-processed error while leaving the store exactly as the successful
run left it. -/
theorem runPayroll_idempotency_guard (s : Store) (periodID pb : UUID) (ip rid : String) :
    (GetPayrollPeriodByID s periodID = none →
      RunPayroll s periodID pb ip rid = (s, some "payroll period not found")) ∧
    (∀ period, GetPayrollPeriodByID s periodID = some period → period.isProcessed = true →
      RunPayroll s periodID pb ip rid = (s, some "payroll already processed")) ∧
    (∀ s1, RunPayroll s periodID pb ip rid = (s1, none) →
      RunPayroll s1 periodID pb ip rid = (s1, some "payroll already processed")) := by
  refine ⟨?_, ?_, ?_⟩
  · intro h
    unfold RunPayroll
    rw [h]
  · intro period hfind hproc
    unfold RunPayroll
    rw [hfind]
    simp only [hproc, if_true]
  · intro s1 h
    exact runPayroll_success_processed s periodID pb pb ip rid ip rid s1 h

/-- Witness for C3: an empty store yields not-found, a processed period
yields already-processed, and a rerun after a concrete successful run on an
open period yields already-processed with the store unchanged. -/
theorem runPayroll_idempotency_guard_witness :
    RunPayroll emptyStore 1 9 "ip" "r" = (emptyStore, some "payroll period not found") ∧
    RunPayroll processedStore 1 9 "ip" "r" =
      (processedStore, some "payroll already processed") ∧
    RunPayroll (RunPayroll openPeriodStore 1 9 "ip" "r").1 1 9 "ip" "r" =
      ((RunPayroll openPeriodStore 1 9 "ip" "r").1, some "payroll already processed") :=
  ⟨(runPayroll_idempotency_guard emptyStore 1 9 "ip" "r").1 rfl,
   (runPayroll_idempotency_guard processedStore 1 9 "ip" "r").2.1
     { id := 1, startDate := 0, endDate := 11, isProcessed := true, processedAt := some 0 }
     rfl rfl,
   (runPayroll_idempotency_guard openPeriodStore 1 9 "ip" "r").2.2
     (RunPayroll openPeriodStore 1 9 "ip" "r").1
     (Prod.ext_iff.mpr ⟨rfl, rfl⟩)⟩

/-- C2: if the calculator fails for any employee of the population handed to
the run loop (for instance an employee with no salary profile), the whole
transaction aborts: the invocation reports an error and every table except
the non-transactional audit sink is exactly as before, so no payslip of this
invocation is visible, no record is tagged with the period id, and the
period keeps is_processed = false. -/
theorem runPayroll_all_or_nothing
    (s : Store) (employees : List EmployeeProfile) (period : PayrollPeriod)
    (pb : UUID) (ip rid : String)
    (h : ∃ emp ∈ employees, ∃ e, CalculatePayslip s emp.userID period pb = .error e) :
    (∃ e, (RunPayrollGivenEmployees s employees period pb ip rid).2 = some e) ∧
    (RunPayrollGivenEmployees s employees period pb ip rid).1.payslips = s.payslips ∧
    (RunPayrollGivenEmployees s employees period pb ip rid).1.attendances = s.attendances ∧
    (RunPayrollGivenEmployees s employees period pb ip rid).1.overtimes = s.overtimes ∧
    (RunPayrollGivenEmployees s employees period pb ip rid).1.reimbursements =
      s.reimbursements ∧
    (RunPayrollGivenEmployees s employees period pb ip rid).1.periods = s.periods := by
  obtain ⟨e, he⟩ := rpge_fails_of_calc_error s employees period pb ip rid h
  have hpair : RunPayrollGivenEmployees s employees period pb ip rid =
      ((RunPayrollGivenEmployees s employees period pb ip rid).1, some e) :=
    Prod.ext_iff.mpr ⟨rfl, he⟩
  have hfields := rpge_error_fields s employees period pb ip rid _ e hpair
  exact ⟨⟨e, he⟩, hfields.1, hfields.2.1, hfields.2.2.1, hfields.2.2.2.1, hfields.2.2.2.2.1⟩

/-- Witness for C2: a population entry without a salary profile makes the
run abort with no payslip and no period change. -/
theorem runPayroll_all_or_nothing_witness :
    (∃ e, (RunPayrollGivenEmployees openPeriodStore [{ userID := 77, salary := 100 }]
        e2ePeriod 9 "ip" "r").2 = some e) ∧
    (RunPayrollGivenEmployees openPeriodStore [{ userID := 77, salary := 100 }]
        e2ePeriod 9 "ip" "r").1.payslips = openPeriodStore.payslips ∧
    (RunPayrollGivenEmployees openPeriodStore [{ userID := 77, salary := 100 }]
        e2ePeriod 9 "ip" "r").1.periods = openPeriodStore.periods := by
  have h := runPayroll_all_or_nothing openPeriodStore [{ userID := 77, salary := 100 }]
    e2ePeriod 9 "ip" "r"
    ⟨{ userID := 77, salary := 100 }, List.mem_singleton.mpr rfl,
      "employee profile not found", rfl⟩
  exact ⟨h.1, h.2.1, h.2.2.2.2.2⟩

/-- C4: the final step of a run is a compare-and-set — the conditional
update succeeds only if a row with the period id and is_processed = false
was still present, flips exactly those rows, reports the conflict error on
zero affected rows (in which case the invocation fails and its transaction
writes are rolled back), can never succeed twice in a row, and hence two
RunPayroll invocations on the same period can never both succeed. -/
theorem markProcessed_cas_guard
    (txs s : Store) (periodID : UUID) (period : PayrollPeriod)
    (employees : List EmployeeProfile) (pb pb2 : UUID) (ip rid ip2 rid2 : String) :
    (∀ txs1, MarkPayrollPeriodAsProcessedTx txs periodID = .ok txs1 →
      (∃ p ∈ txs.periods, p.id = periodID ∧ p.isProcessed = false) ∧
      txs1.periods = txs.periods.map (fun p =>
        if p.id == periodID && !p.isProcessed then
          { p with isProcessed := true, processedAt := some 0 }
        else p)) ∧
    ((¬ ∃ p ∈ txs.periods, p.id = periodID ∧ p.isProcessed = false) →
      MarkPayrollPeriodAsProcessedTx txs periodID =
        .error "no payroll period updated, maybe already processed or not found") ∧
    (∀ txs1, MarkPayrollPeriodAsProcessedTx txs periodID = .ok txs1 →
      MarkPayrollPeriodAsProcessedTx txs1 periodID =
        .error "no payroll period updated, maybe already processed or not found") ∧
    ((¬ ∃ p ∈ s.periods, p.id = period.id ∧ p.isProcessed = false) →
      (∃ e, (RunPayrollGivenEmployees s employees period pb ip rid).2 = some e) ∧
      (RunPayrollGivenEmployees s employees period pb ip rid).1.payslips = s.payslips ∧
      (RunPayrollGivenEmployees s employees period pb ip rid).1.periods = s.periods) ∧
    (∀ s1, RunPayroll s periodID pb ip rid = (s1, none) →
      (RunPayroll s1 periodID pb2 ip2 rid2).2 ≠ none) := by
  refine ⟨?_, ?_, ?_, ?_, ?_⟩
  · intro txs1 h
    have hsh := markTx_ok_shape txs periodID txs1 h
    exact ⟨hsh.1, by rw [hsh.2]⟩
  · exact markTx_error_of_no_open txs periodID
  · intro txs1 h
    have hsh := markTx_ok_shape txs periodID txs1 h
    apply markTx_error_of_no_open
    rintro ⟨p, hp, hpid, hpproc⟩
    rw [hsh.2] at hp
    simp only at hp
    rcases List.mem_map.mp hp with ⟨q, hq, hfq⟩
    by_cases hc : (q.id == periodID && !q.isProcessed) = true
    · have : p = { q with isProcessed := true, processedAt := some 0 } := by
        rw [← hfq]
        show (if (q.id == periodID && !q.isProcessed) = true then
            ({ q with isProcessed := true, processedAt := some 0 } : PayrollPeriod)
          else q) = { q with isProcessed := true, processedAt := some 0 }
        rw [if_pos hc]
      rw [this] at hpproc
      cases hpproc
    · have hpq : p = q := by
        rw [← hfq]
        show (if (q.id == periodID && !q.isProcessed) = true then
            ({ q with isProcessed := true, processedAt := some 0 } : PayrollPeriod)
          else q) = q
        rw [if_neg hc]
      apply hc
      rw [hpq] at hpid hpproc
      simp [hpid, hpproc]
  · intro h
    obtain ⟨e, he⟩ := rpge_fails_of_no_open s employees period pb ip rid h
    have hfields := rpge_error_fields s employees period pb ip rid _ e
      (Prod.ext_iff.mpr ⟨rfl, he⟩)
    exact ⟨⟨e, he⟩, hfields.1, hfields.2.2.2.2.1⟩
  · intro s1 h hc
    have hsecond := runPayroll_success_processed s periodID pb pb2 ip rid ip2 rid2 s1 h
    rw [hsecond] at hc
    cases hc

/-- Witness for C4: the compare-and-set on the concrete open period
succeeds exactly once, fails on the processed store, and a concrete rerun
after a successful concrete run cannot succeed. -/
theorem markProcessed_cas_guard_witness :
    (∃ p ∈ openPeriodStore.periods, p.id = 1 ∧ p.isProcessed = false) ∧
    MarkPayrollPeriodAsProcessedTx processedStore 1 =
      .error "no payroll period updated, maybe already processed or not found" ∧
    (∃ e, (RunPayrollGivenEmployees processedStore []
        { id := 1, startDate := 0, endDate := 11, isProcessed := true, processedAt := some 0 }
        9 "ip" "r").2 = some e) ∧
    (RunPayroll (RunPayroll openPeriodStore 1 9 "ip" "r").1 1 9 "ip" "r").2 ≠ none := by
  have hcas := markProcessed_cas_guard openPeriodStore processedStore 1
    { id := 1, startDate := 0, endDate := 11, isProcessed := true, processedAt := some 0 }
    [] 9 9 "ip" "r" "ip" "r"
  refine ⟨(hcas.1 processedStore rfl).1, ?_, ?_, ?_⟩
  · exact hcas.2.2.1 processedStore rfl
  · exact ((markProcessed_cas_guard processedStore processedStore 1
      { id := 1, startDate := 0, endDate := 11, isProcessed := true, processedAt := some 0 }
      [] 9 9 "ip" "r" "ip" "r").2.2.2.1 (by decide)).1
  · exact (markProcessed_cas_guard openPeriodStore openPeriodStore 1 e2ePeriod [] 9 9
      "ip" "r" "ip" "r").2.2.2.2 (RunPayroll openPeriodStore 1 9 "ip" "r").1
      (Prod.ext_iff.mpr ⟨rfl, rfl⟩)

/-- C9: a payroll period is persisted only when its end date is strictly
after its start date and no stored period overlaps the requested range; a
violating request fails with the store untouched, so well-formedness of the
stored periods (start before end, pairwise non-overlap) is preserved by
every CreatePayrollPeriod call. -/
theorem createPayrollPeriod_invariants
    (s : Store) (freshID : UUID) (sd ed : Day) (cb : UUID) (ip rid : String) :
    (ed ≤ sd →
      CreatePayrollPeriod s freshID sd ed cb ip rid =
        (s, .error "end date must be after start date")) ∧
    (sd < ed → (∃ p ∈ s.periods, p.startDate ≤ ed ∧ sd ≤ p.endDate) →
      CreatePayrollPeriod s freshID sd ed cb ip rid =
        (s, .error "a payroll period overlapping with these dates already exists")) ∧
    (∀ s1 period, CreatePayrollPeriod s freshID sd ed cb ip rid = (s1, .ok period) →
      period.startDate < period.endDate ∧
      (∀ p ∈ s.periods, ¬ periodsOverlap p period) ∧
      s1.periods = s.periods ++ [period]) ∧
    (PeriodsWellFormed s.periods →
      PeriodsWellFormed (CreatePayrollPeriod s freshID sd ed cb ip rid).1.periods) := by
  have hok : ∀ s1 period, CreatePayrollPeriod s freshID sd ed cb ip rid = (s1, .ok period) →
      period.startDate < period.endDate ∧
      (∀ p ∈ s.periods, ¬ periodsOverlap p period) ∧
      s1.periods = s.periods ++ [period] := by
    intro s1 period h
    unfold CreatePayrollPeriod at h
    by_cases h1 : ed ≤ sd
    · rw [if_pos h1] at h
      simp at h
    · rw [if_neg h1] at h
      by_cases h2 : 0 < (GetOverlappingPayrollPeriods s sd ed).length
      · rw [if_pos h2] at h
        simp at h
      · rw [if_neg h2] at h
        simp only [Prod.mk.injEq, Except.ok.injEq] at h
        have hper : period = { id := freshID, startDate := sd, endDate := ed
                               isProcessed := false, processedAt := none } := h.2.symm
        have hnil : GetOverlappingPayrollPeriods s sd ed = [] :=
          List.eq_nil_of_length_eq_zero (Nat.eq_zero_of_not_pos h2)
        have hnov : ∀ p ∈ s.periods, ¬ (p.startDate ≤ ed ∧ sd ≤ p.endDate) := by
          intro p hp hcon
          have : p ∈ GetOverlappingPayrollPeriods s sd ed :=
            List.mem_filter.mpr ⟨hp, by simp [hcon.1, hcon.2]⟩
          rw [hnil] at this
          cases this
        refine ⟨by rw [hper]; exact Nat.lt_of_not_le h1, ?_, ?_⟩
        · intro p hp hov
          exact hnov p hp (by rw [hper] at hov; exact hov)
        · rw [← h.1, hper]
  refine ⟨?_, ?_, hok, ?_⟩
  · intro h
    unfold CreatePayrollPeriod
    rw [if_pos h]
  · intro h1 h2
    unfold CreatePayrollPeriod
    rw [if_neg (Nat.not_le.mpr h1)]
    have : 0 < (GetOverlappingPayrollPeriods s sd ed).length := by
      rcases h2 with ⟨p, hp, hc⟩
      have : p ∈ GetOverlappingPayrollPeriods s sd ed :=
        List.mem_filter.mpr ⟨hp, by simp [hc.1, hc.2]⟩
      exact List.length_pos_of_mem this
    rw [if_pos this]
  · intro hwf
    rcases hres : CreatePayrollPeriod s freshID sd ed cb ip rid with ⟨s1, res⟩
    cases res with
    | error e =>
      have hs1 : s1 = s := by
        unfold CreatePayrollPeriod at hres
        by_cases h1 : ed ≤ sd
        · rw [if_pos h1] at hres
          cases hres; rfl
        · rw [if_neg h1] at hres
          by_cases h2 : 0 < (GetOverlappingPayrollPeriods s sd ed).length
          · rw [if_pos h2] at hres
            cases hres; rfl
          · rw [if_neg h2] at hres
            cases hres
      simp only [hs1]
      exact hwf
    | ok period =>
      have hsh := hok s1 period hres
      simp only [hsh.2.2]
      constructor
      · intro p hp
        rcases List.mem_append.mp hp with h | h
        · exact hwf.1 p h
        · rw [List.mem_singleton.mp h]
          exact hsh.1
      · rw [List.pairwise_append]
        refine ⟨hwf.2, List.pairwise_singleton _ _, ?_⟩
        intro p hp q hq
        rw [List.mem_singleton.mp hq]
        exact hsh.2.1 p hp

/-- Witness for C9: a reversed range is rejected on the empty store, an
overlapping range is rejected on the store holding the [0, 11] period with
the store untouched, and well-formedness is preserved concretely. -/
theorem createPayrollPeriod_invariants_witness :
    CreatePayrollPeriod emptyStore 2 5 3 9 "ip" "r" =
      (emptyStore, .error "end date must be after start date") ∧
    CreatePayrollPeriod openPeriodStore 2 10 20 9 "ip" "r" =
      (openPeriodStore, .error "a payroll period overlapping with these dates already exists") ∧
    PeriodsWellFormed (CreatePayrollPeriod emptyStore 2 0 11 9 "ip" "r").1.periods := by
  refine ⟨?_, ?_, ?_⟩
  · exact (createPayrollPeriod_invariants emptyStore 2 5 3 9 "ip" "r").1 (by decide)
  · exact (createPayrollPeriod_invariants openPeriodStore 2 10 20 9 "ip" "r").2.1
      (by decide) ⟨e2ePeriod, by decide⟩
  · exact (createPayrollPeriod_invariants emptyStore 2 0 11 9 "ip" "r").2.2.2
      ⟨(by intro p hp; cases hp), List.Pairwise.nil⟩

/-- The payslip a successful calculator run carries has the queried employee
id and the period id. -/
lemma calcPayslip?_shape (s : Store) (uid : UUID) (period : PayrollPeriod)
    (pb : UUID) (p : Payslip) (h : calcPayslip? s uid period pb = some p) :
    p.userID = uid ∧ p.payrollPeriodID = period.id := by
  unfold calcPayslip? at h
  cases hc : CalculatePayslip s uid period pb with
  | error e => rw [hc] at h; cases h
  | ok r =>
    rw [hc] at h
    have hpr : r.payslip = p := by
      simpa [Except.toOption] using h
    unfold CalculatePayslip at hc
    cases hf : GetEmployeeProfileByUserID s uid with
    | none => rw [hf] at hc; cases hc
    | some prof =>
      rw [hf] at hc
      simp only [Except.ok.injEq] at hc
      rw [← hpr, ← hc]
      exact ⟨rfl, rfl⟩

/-- An employee with a profile but no attendance, overtime or reimbursement
rows in range gets the all-zero payslip on their profile salary. -/
lemma calcPayslip?_zero (s : Store) (uid : UUID) (period : PayrollPeriod)
    (pb : UUID) (prof : EmployeeProfile)
    (hf : GetEmployeeProfileByUserID s uid = some prof)
    (ha : GetAttendancesByUserIDAndPeriod s uid period.startDate period.endDate = [])
    (ho : GetOvertimesByUserIDAndPeriod s uid period.startDate period.endDate = [])
    (hr : GetReimbursementsByUserIDAndPeriod s uid period.startDate period.endDate = []) :
    calcPayslip? s uid period pb =
      some { userID := uid, payrollPeriodID := period.id, baseSalary := prof.salary
             proratedSalary := 0, overtimePay := 0, totalReimbursement := 0
             totalTakeHomePay := 0 } := by
  simp only [calcPayslip?, CalculatePayslip, hf, ha, ho, hr]
  simp [totalWorkedHoursIn, sumOvertimeHours, sumReimbursementAmounts, Except.toOption,
    mul_zero, zero_mul, ite_self]

/-- When every calculator call succeeds, the produced payslips carry the
employee ids of the population, in order. -/
lemma filterMap_calc_userID (s : Store) (period : PayrollPeriod) (pb : UUID) :
    ∀ l : List EmployeeProfile,
      (∀ emp ∈ l, ∃ p, calcPayslip? s emp.userID period pb = some p) →
      (l.filterMap (fun emp => calcPayslip? s emp.userID period pb)).map Payslip.userID =
        l.map EmployeeProfile.userID := by
  intro l
  induction l with
  | nil => intro _; rfl
  | cons emp rest ih =>
    intro h
    rcases h emp (List.mem_cons_self emp rest) with ⟨p, hp⟩
    rw [List.filterMap_cons, hp, List.map_cons, List.map_cons,
      (calcPayslip?_shape s emp.userID period pb p hp).1,
      ih (fun e he => h e (List.mem_cons_of_mem _ he))]

/-- With pairwise distinct profile user ids, the profile lookup of a listed
employee returns exactly that employee. -/
lemma getProfile_self (s : Store) (emp : EmployeeProfile)
    (hmem : emp ∈ s.profiles)
    (hnodup : (s.profiles.map EmployeeProfile.userID).Nodup) :
    GetEmployeeProfileByUserID s emp.userID = some emp := by
  unfold GetEmployeeProfileByUserID
  cases hfind : s.profiles.find? (fun p => p.userID == emp.userID) with
  | none =>
    have := List.find?_eq_none.mp hfind emp hmem
    simp at this
  | some q =>
    have hqmem := List.mem_of_find?_eq_some hfind
    have hq := List.find?_some hfind
    have : q = emp :=
      List.inj_on_of_nodup_map hnodup hqmem hmem (beq_iff_eq.mp hq)
    rw [this]

/-- C8: after a successful run, every profiled employee has exactly one
newly created payslip for the period — including employees with no
attendance, overtime or reimbursement rows in range, whose payslip carries
their profile salary and zeros in every computed component. -/
theorem runPayroll_zero_submission_payslips
    (s : Store) (periodID pb : UUID) (ip rid : String) (s1 : Store)
    (period : PayrollPeriod)
    (hfind : GetPayrollPeriodByID s periodID = some period)
    (hrun : RunPayroll s periodID pb ip rid = (s1, none))
    (hnodup : (s.profiles.map EmployeeProfile.userID).Nodup) :
    ∃ news, s1.payslips = s.payslips ++ news ∧
      news.map Payslip.userID = s.profiles.map EmployeeProfile.userID ∧
      (∀ p ∈ news, p.payrollPeriodID = period.id) ∧
      (∀ emp ∈ s.profiles,
        (news.filter (fun p => p.userID == emp.userID)).length = 1) ∧
      (∀ emp ∈ s.profiles,
        GetAttendancesByUserIDAndPeriod s emp.userID period.startDate period.endDate = [] →
        GetOvertimesByUserIDAndPeriod s emp.userID period.startDate period.endDate = [] →
        GetReimbursementsByUserIDAndPeriod s emp.userID period.startDate period.endDate = [] →
        ∀ p ∈ news, p.userID = emp.userID →
          p.baseSalary = emp.salary ∧ p.proratedSalary = 0 ∧ p.overtimePay = 0 ∧
          p.totalReimbursement = 0 ∧ p.totalTakeHomePay = 0) := by
  unfold RunPayroll at hrun
  rw [hfind] at hrun
  simp only at hrun
  by_cases hproc : period.isProcessed
  · rw [if_pos hproc] at hrun
    cases hrun
  · rw [if_neg hproc] at hrun
    have hsh := rpge_success_shape s (GetAllEmployeeProfiles s) period pb ip rid s1 hrun
    have hsome : ∀ emp ∈ s.profiles, ∃ p, calcPayslip? s emp.userID period pb = some p := by
      intro emp hemp
      rcases hsh.1 emp hemp with ⟨r, hr⟩
      exact ⟨r.payslip, by simp [calcPayslip?, hr, Except.toOption]⟩
    have hmap := filterMap_calc_userID s period pb s.profiles hsome
    refine ⟨s.profiles.filterMap (fun emp => calcPayslip? s emp.userID period pb),
      hsh.2.1, hmap, ?_, ?_, ?_⟩
    · intro p hp
      rcases List.mem_filterMap.mp hp with ⟨emp, hemp, hpe⟩
      exact (calcPayslip?_shape s emp.userID period pb p hpe).2
    · intro emp hemp
      rw [← List.countP_eq_length_filter]
      have h1 : (s.profiles.filterMap
            (fun emp => calcPayslip? s emp.userID period pb)).countP
            (fun p => p.userID == emp.userID) =
          ((s.profiles.filterMap
            (fun emp => calcPayslip? s emp.userID period pb)).map
              Payslip.userID).countP (fun u => u == emp.userID) := by
        rw [List.countP_map]
        rfl
      rw [h1, hmap]
      have h2 : (s.profiles.map EmployeeProfile.userID).countP
          (fun u => u == emp.userID) =
          (s.profiles.map EmployeeProfile.userID).count emp.userID := rfl
      rw [h2]
      exact List.count_eq_one_of_mem hnodup (List.mem_map_of_mem _ hemp)
    · intro emp hemp ha ho hr p hp hpuid
      rcases List.mem_filterMap.mp hp with ⟨emp2, hemp2, hpe⟩
      have huid2 : p.userID = emp2.userID :=
        (calcPayslip?_shape s emp2.userID period pb p hpe).1
      have hemp2emp : emp2 = emp :=
        List.inj_on_of_nodup_map hnodup hemp2 hemp (by rw [← huid2, hpuid])
      rw [hemp2emp] at hpe
      have hprof : GetEmployeeProfileByUserID s emp.userID = some emp :=
        getProfile_self s emp hemp hnodup
      rw [calcPayslip?_zero s emp.userID period pb emp hprof ha ho hr] at hpe
      have : p = { userID := emp.userID, payrollPeriodID := period.id
                   baseSalary := emp.salary, proratedSalary := 0, overtimePay := 0
                   totalReimbursement := 0, totalTakeHomePay := 0 } :=
        (Option.some.injEq _ _).mp hpe.symm
      rw [this]
      exact ⟨rfl, rfl, rfl, rfl, rfl⟩

/-- Witness for C8: the concrete run over the store with one profiled,
zero-submission employee produces exactly that employee's payslip list. -/
theorem runPayroll_zero_submission_payslips_witness :
    ∃ news, (RunPayroll soloStore 1 9 "ip" "r").1.payslips = soloStore.payslips ++ news ∧
      news.map Payslip.userID = soloStore.profiles.map EmployeeProfile.userID ∧
      (∀ p ∈ news, p.payrollPeriodID = e2ePeriod.id) ∧
      (∀ emp ∈ soloStore.profiles,
        (news.filter (fun p => p.userID == emp.userID)).length = 1) ∧
      (∀ emp ∈ soloStore.profiles,
        GetAttendancesByUserIDAndPeriod soloStore emp.userID e2ePeriod.startDate
          e2ePeriod.endDate = [] →
        GetOvertimesByUserIDAndPeriod soloStore emp.userID e2ePeriod.startDate
          e2ePeriod.endDate = [] →
        GetReimbursementsByUserIDAndPeriod soloStore emp.userID e2ePeriod.startDate
          e2ePeriod.endDate = [] →
        ∀ p ∈ news, p.userID = emp.userID →
          p.baseSalary = emp.salary ∧ p.proratedSalary = 0 ∧ p.overtimePay = 0 ∧
          p.totalReimbursement = 0 ∧ p.totalTakeHomePay = 0) :=
  runPayroll_zero_submission_payslips soloStore 1 9 "ip" "r"
    (RunPayroll soloStore 1 9 "ip" "r").1 e2ePeriod rfl
    (Prod.ext_iff.mpr ⟨rfl, rfl⟩) (by decide)

/-- Witness for C10: concretely, a nil actor dereference yields no entry,
and the service-side wrapper appends the one entry of its non-nil actor. -/
theorem createAuditLog_actor_witness :
    CreateAuditLog [] none "CREATE" "Overtime" none "ip" "r" = none ∧
    auditWrite [] 5 "CREATE" "Overtime" none "ip" "r" =
      [{ userID := some 5, action := "CREATE", entityName := "Overtime"
         entityID := none, requestID := "r", createdBy := 5, ipAddress := "ip" }] ∧
    (∀ e ∈ auditWrite [] 5 "CREATE" "Overtime" none "ip" "r",
      (e ∈ ([] : List AuditLog)) ∨ e.userID = some 5) :=
  ⟨(createAuditLog_actor [] 5 "CREATE" "Overtime" none "ip" "r").1,
   (createAuditLog_actor [] 5 "CREATE" "Overtime" none "ip" "r").2.2.1,
   (createAuditLog_actor [] 5 "CREATE" "Overtime" none "ip" "r").2.2.2⟩

end Payroll
